import Mathlib

/-!
Verification of the multi-flow character-device engine
(`src/multi-flow-service.c`) against its natural-language specification.

The driver keeps, per minor, one `object_state` record (a single circular
byte buffer of `OBJECT_MAX_SIZE = 4096` bytes with `off_read`/`off_write`
cursors), plus two module-parameter arrays `numBytes[minor]` and
`numReaders[minor]` (both `unsigned int`).  We embed one instance (one
minor) shallowly: the memory page `stream_content` becomes a function
`Nat → Nat`, cursors and counters become `Nat` (with explicit `mod 2^32`
where the C unsigned arithmetic can wrap), and each entry point becomes a
pure state-passing function modelling the single-threaded execution in
which `spin_trylock` succeeds and `copy_from_user`/`copy_to_user` transfer
all requested bytes (return 0).
-/

namespace MultiFlow

/-- Capacity of the per-minor buffer (`OBJECT_MAX_SIZE` in the source). -/
def OBJECT_MAX_SIZE : Nat := 4096

/-- Modulus of the C type `unsigned int` used for `numBytes`/`numReaders`. -/
def U32 : Nat := 4294967296

/-- Wrapping subtraction on `unsigned int`, the effect of `atomic_sub(b, a)`
on an unsigned cell holding `a`. -/
def u32sub (a b : Nat) : Nat := (a + (U32 - b % U32)) % U32

/-- The per-minor driver state: the fields of `struct _object_state`
(lines 79-87) together with this minor's cells of the module-parameter
arrays `numBytes` and `numReaders` (lines 110-111), which the driver
updates in `dev_write` / `dev_read`. -/
structure object_state where
  off_read : Nat
  off_write : Nat
  stream_content : Nat → Nat
  priority : Bool
  blocking : Bool
  timeout : Int
  numBytes : Nat
  numReaders : Nat

/-- Bytes of `st` starting at offset `off`, `n` of them (a contiguous
`memcpy`-out, as performed by `copy_to_user` from the stream). -/
def readRange (st : Nat → Nat) : Nat → Nat → List Nat
  | _, 0 => []
  | off, n + 1 => st off :: readRange st (off + 1) n

/-- Overwrite the bytes of `st` at offsets `[off, off + data.length)` with
`data` (a contiguous `memcpy`-in, as performed by `copy_from_user`). -/
def writeRange (st : Nat → Nat) (off : Nat) (data : List Nat) : Nat → Nat :=
  fun i => if off ≤ i ∧ i < off + data.length then data.getD (i - off) 0 else st i

/-- The initial state of a minor as set up by `init_module` (lines 585-598):
zeroed fresh page, cursors at 0, priority HIGH, blocking, timeout 200 ms,
and zero-initialised `numBytes` / `numReaders` cells. -/
def initState : object_state :=
  { off_read := 0
    off_write := 0
    stream_content := fun _ => 0
    priority := true
    blocking := true
    timeout := 200
    numBytes := 0
    numReaders := 0 }

/-- The HIGH-priority branch of `dev_write` (lines 232-315).  We model the
body executed once the spinlock is held (the non-blocking branch at lines
278-307; the blocking branch runs the identical body, lines 249-275, when
the lock is obtained before the deadline), with `copy_from_user`
transferring everything.  The full-check at line 282 compares
`numBytes[minor] + len >= OBJECT_MAX_SIZE`; on success the result is added
to `numBytes` at line 310 and the call returns `result`. -/
def dev_write_high (s : object_state) (data : List Nat) : Nat × object_state :=
  let len := data.length
  if OBJECT_MAX_SIZE ≤ s.numBytes + len then
    (0, s)
  else
    let len_2nd := if OBJECT_MAX_SIZE - s.off_write < len
      then len + s.off_write - OBJECT_MAX_SIZE else 0
    let len1 := if OBJECT_MAX_SIZE - s.off_write < len
      then OBJECT_MAX_SIZE - s.off_write else len
    let st1 := writeRange s.stream_content s.off_write (data.take len1)
    let result1 := len1
    if 0 < len_2nd ∧ result1 = len1 then
      let st2 := writeRange st1 0 ((data.drop result1).take len_2nd)
      let result := result1 + len_2nd
      (result,
        { s with
          stream_content := st2
          off_write := len_2nd
          numBytes := if 0 < result then s.numBytes + result else s.numBytes })
    else
      (result1,
        { s with
          stream_content := st1
          off_write := s.off_write + len1
          numBytes := if 0 < result1 then s.numBytes + result1 else s.numBytes })

/-- A `struct _packed_work` deferred task (lines 90-96): the reserved byte
count `copiedBytes` and the owned copy of the payload (`buffer`; the slot
at index `copiedBytes` holds the string terminator written at line 334). -/
structure packed_work where
  copiedBytes : Nat
  buffer : List Nat

/-- The LOW-priority branch of `dev_write` (lines 317-395), non-blocking
path, with the lock obtained and `copy_from_user` transferring everything.
`allocFail` selects the `kzalloc` failure path at lines 325-330, which
returns `-1`.  Otherwise the payload is copied into the task buffer
(line 333), the full-check `numBytes + len >= OBJECT_MAX_SIZE` is made at
line 372 (on failure the task is freed and the current `result`, still `0`
from the successful user copy, is returned), and on success `result = len`
is added to `numBytes` (line 379) and the task is scheduled; the call
returns `result` without having touched the stream. -/
def dev_write_low (s : object_state) (data : List Nat) (allocFail : Bool) :
    Int × Option packed_work × object_state :=
  let len := data.length
  if allocFail then
    (-1, none, s)
  else
    let the_task : packed_work := { copiedBytes := len, buffer := data }
    if OBJECT_MAX_SIZE ≤ s.numBytes + len then
      (0, none, s)
    else
      ((len : Int), some the_task, { s with numBytes := s.numBytes + len })

/-- First-zero-truncated prefix of a byte list: the bytes a C `strcpy`
transfers from a buffer holding these bytes followed by a terminator. -/
def takeUntilZero : List Nat → List Nat
  | [] => []
  | b :: rest => if b = 0 then [] else b :: takeUntilZero rest

/-- Effect of `strcpy(&st[off], src)` where the source buffer holds the
bytes `src` followed by a zero terminator: the prefix of `src` before its
first zero byte is copied, then a terminating zero byte is stored. -/
def strcpyAt (st : Nat → Nat) (off : Nat) (src : List Nat) : Nat → Nat :=
  writeRange st off (takeUntilZero src ++ [0])

/-- The deferred worker `delayed_work` (lines 156-214): under the lock it
either `strcpy`s the whole task buffer at `off_write` and advances
`off_write` by the full `copiedBytes` (lines 172-175 and 198-199), or, when
the write would cross the end of the page, splits the payload into two
chunks, each given its own terminator (lines 177-194), `strcpy`s the first
at `off_write` and the second at offset 0, leaving `off_write = len2`
(lines 198-207).  It never touches `numBytes` or `numReaders`. -/
def delayed_work (s : object_state) (w : packed_work) : object_state :=
  let len := w.copiedBytes
  if len ≤ OBJECT_MAX_SIZE - s.off_write then
    { s with stream_content := strcpyAt s.stream_content s.off_write w.buffer,
             off_write := s.off_write + len }
  else
    let len2 := len + s.off_write - OBJECT_MAX_SIZE
    let len1 := OBJECT_MAX_SIZE - s.off_write
    let buff1 := w.buffer.take len1
    let buff2 := (w.buffer.drop len1).take len2
    let st1 := strcpyAt s.stream_content s.off_write buff1
    let st2 := strcpyAt st1 0 buff2
    { s with stream_content := st2, off_write := len2 }

/-- The non-blocking branch of `dev_read` (lines 400-412 and 472-503), with
the lock obtained and `copy_to_user` transferring everything.  `numReaders`
is incremented on entry (line 412); if `off_write - off_read == 0` the call
exits with 0 (lines 476-479); otherwise it copies `len` bytes out starting
at `off_read` (wrapping at the page end, lines 480-496) and advances
`off_read` by the copied count; on exit `numReaders` is decremented and
`result` is subtracted from the unsigned `numBytes` cell (lines 500-501). -/
def dev_read_nb (s0 : object_state) (len0 : Nat) : List Nat × Nat × object_state :=
  let s := { s0 with numReaders := s0.numReaders + 1 }
  if s.off_write = s.off_read then
    ([], 0, { s with numReaders := s.numReaders - 1 })
  else
    let len_2nd := if OBJECT_MAX_SIZE - s.off_read < len0
      then len0 + s.off_read - OBJECT_MAX_SIZE else 0
    let len := if OBJECT_MAX_SIZE - s.off_read < len0
      then OBJECT_MAX_SIZE - s.off_read else len0
    let out1 := readRange s.stream_content s.off_read len
    let result1 := len
    if 0 < len_2nd ∧ result1 = len then
      let out2 := readRange s.stream_content 0 len_2nd
      let result := result1 + len_2nd
      (out1 ++ out2, result,
        { s with
          off_read := len_2nd
          numReaders := s.numReaders - 1
          numBytes := if 0 < result then u32sub s.numBytes result else s.numBytes })
    else
      (out1, result1,
        { s with
          off_read := s.off_read + len
          numReaders := s.numReaders - 1
          numBytes := if 0 < result1 then u32sub s.numBytes result1 else s.numBytes })

/-- One-plus-entry state of `dev_read`: the `atomic_inc` of this minor's
`numReaders` cell at line 412, performed before any branch of the read. -/
def readEntry (s : object_state) : object_state :=
  { s with numReaders := s.numReaders + 1 }

/-- The retry loop of the blocking branch of `dev_read` (lines 419-466),
executed sequentially (no concurrent writer): `fuel` counts the loop
iterations that happen before the deadline at line 422 elapses.  An
iteration finding `off_write - off_read <= 0` waits at line 429; with no
writer the wait times out and the loop breaks (line 433).  Otherwise the
body at lines 437-465 runs under the lock; the loop breaks when the
accumulated `result` equals the (possibly clipped) `len`. -/
def read_loop (s : object_state) (acc : List Nat) (len result : Nat) :
    Nat → List Nat × Nat × object_state
  | 0 => (acc, result, s)
  | fuel + 1 =>
    if (s.off_write : Int) - s.off_read ≤ 0 then
      (acc, result, s)
    else
      let len_2nd := if OBJECT_MAX_SIZE - s.off_read < len
        then len + s.off_read - OBJECT_MAX_SIZE else 0
      let l1 := if OBJECT_MAX_SIZE - s.off_read < len
        then OBJECT_MAX_SIZE - s.off_read else len
      let out1 := readRange s.stream_content s.off_read l1
      let s1 := { s with off_read := s.off_read + l1 }
      let result1 := result + l1
      if 0 < len_2nd ∧ result1 = l1 then
        let out2 := readRange s1.stream_content 0 len_2nd
        let s2 := { s1 with off_read := len_2nd }
        let result2 := result1 + len_2nd
        if result2 = l1 then (acc ++ out1 ++ out2, result2, s2)
        else read_loop s2 (acc ++ out1 ++ out2) l1 result2 fuel
      else
        if result1 = l1 then (acc ++ out1, result1, s1)
        else read_loop s1 (acc ++ out1) l1 result1 fuel

/-- The blocking branch of `dev_read` (lines 412-469): increment
`numReaders` on entry, run the retry loop, then on exit decrement
`numReaders` and subtract the accumulated `result` from the unsigned
`numBytes` cell (lines 467-468). -/
def dev_read_bl (s : object_state) (len fuel : Nat) : List Nat × Nat × object_state :=
  let s1 := readEntry s
  let r := read_loop s1 [] len 0 fuel
  (r.1, r.2.1,
    { r.2.2 with
      numReaders := r.2.2.numReaders - 1
      numBytes := if 0 < r.2.1 then u32sub r.2.2.numBytes r.2.1 else r.2.2.numBytes })

/-- The three ioctl commands dispatched by `dev_ioctl` (lines 523-566). -/
inductive IoctlCmd
  | priorityState
  | blockingState
  | timeoutCmd

/-- `dev_ioctl` (lines 506-570) with the user value already read: each
command accepts its valid inputs, mutates exactly one configuration field
and returns 0; any other value returns -1 leaving the state unchanged. -/
def dev_ioctl (s : object_state) (cmd : IoctlCmd) (value : Int) : Int × object_state :=
  match cmd with
  | .priorityState =>
    if value = 0 then (0, { s with priority := false })
    else if value = 1 then (0, { s with priority := true })
    else (-1, s)
  | .blockingState =>
    if value = 0 then (0, { s with blocking := false })
    else if value = 1 then (0, { s with blocking := true })
    else (-1, s)
  | .timeoutCmd =>
    if 0 < value then (0, { s with timeout := value })
    else (-1, s)

/-- The two priority flows named by the specification. -/
inductive Flow
  | high
  | low

/-- The bytes-present statistic served for a flow of this minor.  The
module exposes only the single array cell `numBytes[minor]` (lines
111, 117-118), so the value served is the same for both flows. -/
def reportBytes (s : object_state) (_f : Flow) : Nat := s.numBytes

/-- The waiting-readers statistic served for a flow of this minor; as with
`reportBytes` only the single cell `numReaders[minor]` (lines 110, 115-116)
exists, so the value served is independent of the flow. -/
def reportReaders (s : object_state) (_f : Flow) : Nat := s.numReaders

/-- Number of bytes the circular buffer holds between the cursors (the
cursor distance, counting wrap-around; offset `OBJECT_MAX_SIZE` acts as
offset 0). -/
def bytesInFlow (s : object_state) : Nat :=
  if s.off_read ≤ s.off_write then s.off_write - s.off_read
  else OBJECT_MAX_SIZE - s.off_read + s.off_write

/-- Abstraction of the circular buffer to the FIFO queue of bytes it
holds, oldest first. -/
def flowQueue (s : object_state) : List Nat :=
  if s.off_read ≤ s.off_write then
    readRange s.stream_content s.off_read (s.off_write - s.off_read)
  else
    readRange s.stream_content s.off_read (OBJECT_MAX_SIZE - s.off_read) ++
      readRange s.stream_content 0 s.off_write

/-- The state invariant of a minor: cursors within the page, the visible
byte counter equal to the cursor distance and strictly below capacity
(the full-check at line 282 rejects any write that would reach it). -/
def Inv (s : object_state) : Prop :=
  s.off_read ≤ OBJECT_MAX_SIZE ∧ s.off_write ≤ OBJECT_MAX_SIZE ∧
    s.numBytes = bytesInFlow s ∧ s.numBytes < OBJECT_MAX_SIZE

instance (s : object_state) : Decidable (Inv s) := by
  unfold Inv; infer_instance

/-- The payload of the specification's round-trip test: the bytes of
the 4-byte string used by the repository's user programs. -/
def ciao : List Nat := [99, 105, 97, 111]

/-- A fresh instance after the session reconfigured it to non-blocking
operations via ioctl(IOWR_BLOCKINGSTATE, 0). -/
def nbState : object_state := { initState with blocking := false }

/-- An instance holding exactly two bytes (values 10 and 20). -/
def s2bytes : object_state :=
  { nbState with
    off_write := 2
    numBytes := 2
    stream_content := writeRange (fun _ => 0) 0 [10, 20] }

/-- An instance holding exactly three bytes (values 7, 8 and 9). -/
def s3bytes : object_state :=
  { nbState with
    off_write := 3
    numBytes := 3
    stream_content := writeRange (fun _ => 0) 0 [7, 8, 9] }

/-- An instance holding 4092 bytes, so that a 4-byte write would fill the
buffer to exactly its capacity of 4096. -/
def s4092 : object_state :=
  { nbState with
    off_write := 4092
    numBytes := 4092 }

/-- An instance whose write cursor is two bytes from the page end, so a
4-byte deferred commit wraps. -/
def wStateWrap : object_state :=
  { nbState with
    off_read := 4090
    off_write := 4094 }

/-- A deferred task whose 4-byte payload contains a zero byte at index 1. -/
def wTaskZero : packed_work := { copiedBytes := 4, buffer := [1, 0, 2, 3] }

/-- An instance with the write cursor at offset 10, far from the page end. -/
def wState2 : object_state := { nbState with off_write := 10 }

/-- A deferred task whose 3-byte payload contains a zero byte at index 1. -/
def wTask2 : packed_work := { copiedBytes := 3, buffer := [7, 0, 9] }

theorem readRange_length (st : Nat → Nat) (off n : Nat) :
    (readRange st off n).length = n := by
  induction n generalizing off with
  | zero => rfl
  | succ n ih => simp [readRange, ih]

theorem readRange_congr {st1 st2 : Nat → Nat} {off n : Nat}
    (h : ∀ i, i < n → st1 (off + i) = st2 (off + i)) :
    readRange st1 off n = readRange st2 off n := by
  induction n generalizing off with
  | zero => rfl
  | succ n ih =>
    have h0 : st1 off = st2 off := by simpa using h 0 (Nat.succ_pos n)
    have ht : readRange st1 (off + 1) n = readRange st2 (off + 1) n := by
      apply ih
      intro i hi
      have hx := h (i + 1) (by omega)
      simpa [show off + (i + 1) = off + 1 + i by omega] using hx
    simp [readRange, h0, ht]

theorem readRange_append (st : Nat → Nat) (off a b : Nat) :
    readRange st off (a + b) = readRange st off a ++ readRange st (off + a) b := by
  induction a generalizing off with
  | zero => simp [readRange]
  | succ a ih =>
    have e1 : a + 1 + b = (a + b) + 1 := by omega
    have e2 : off + 1 + a = off + (a + 1) := by omega
    rw [e1]
    simp only [readRange, List.cons_append]
    rw [ih (off + 1), e2]

theorem writeRange_apply_in {st : Nat → Nat} {off : Nat} {data : List Nat} {i : Nat}
    (h1 : off ≤ i) (h2 : i < off + data.length) :
    writeRange st off data i = data.getD (i - off) 0 := by
  unfold writeRange
  rw [if_pos ⟨h1, h2⟩]

theorem writeRange_apply_out {st : Nat → Nat} {off : Nat} {data : List Nat} {i : Nat}
    (h : i < off ∨ off + data.length ≤ i) :
    writeRange st off data i = st i := by
  unfold writeRange
  rw [if_neg (by omega)]

theorem readRange_writeRange (st : Nat → Nat) (off : Nat) (data : List Nat) :
    readRange (writeRange st off data) off data.length = data := by
  induction data generalizing st off with
  | nil => rfl
  | cons b rest ih =>
    simp only [List.length_cons, readRange]
    have hhead : writeRange st off (b :: rest) off = b := by
      rw [writeRange_apply_in (Nat.le_refl off) (by simp only [List.length_cons]; omega)]
      simp
    have htail : readRange (writeRange st off (b :: rest)) (off + 1) rest.length
        = readRange (writeRange st (off + 1) rest) (off + 1) rest.length := by
      apply readRange_congr
      intro i hi
      rw [writeRange_apply_in (by omega) (by simp only [List.length_cons]; omega),
        writeRange_apply_in (by omega) (by omega)]
      have e : off + 1 + i - off = i + 1 := by omega
      have e2 : off + 1 + i - (off + 1) = i := by omega
      rw [e, e2, List.getD_cons_succ]
    rw [hhead, htail, ih]

theorem readRange_writeRange_of_length {st : Nat → Nat} {off : Nat} {l : List Nat}
    {n : Nat} (h : l.length = n) : readRange (writeRange st off l) off n = l := by
  subst h
  exact readRange_writeRange st off l

theorem readRange_writeRange_before {st : Nat → Nat} {off : Nat} {data : List Nat}
    {off2 n : Nat} (h : off2 + n ≤ off) :
    readRange (writeRange st off data) off2 n = readRange st off2 n := by
  apply readRange_congr
  intro i hi
  exact writeRange_apply_out (Or.inl (by omega))

theorem readRange_writeRange_after {st : Nat → Nat} {off : Nat} {data : List Nat}
    {off2 n : Nat} (h : off + data.length ≤ off2) :
    readRange (writeRange st off data) off2 n = readRange st off2 n := by
  apply readRange_congr
  intro i hi
  exact writeRange_apply_out (Or.inr (by omega))

theorem readRange_take (st : Nat → Nat) (off n k : Nat) :
    (readRange st off n).take k = readRange st off (min k n) := by
  induction n generalizing off k with
  | zero => simp [readRange]
  | succ n ih =>
    cases k with
    | zero => simp [readRange]
    | succ k =>
      have e : min (k + 1) (n + 1) = min k n + 1 := by omega
      rw [e]
      simp only [readRange, List.take_succ_cons]
      rw [ih]

theorem readRange_drop (st : Nat → Nat) (off n k : Nat) :
    (readRange st off n).drop k = readRange st (off + k) (n - k) := by
  induction n generalizing off k with
  | zero => simp [readRange]
  | succ n ih =>
    cases k with
    | zero => simp [readRange]
    | succ k =>
      have e : n + 1 - (k + 1) = n - k := by omega
      rw [e]
      simp only [readRange, List.drop_succ_cons]
      rw [ih]
      congr 1
      omega

theorem u32sub_eq_sub {a b : Nat} (hba : b ≤ a) (ha : a < U32) : u32sub a b = a - b := by
  have hbU : b < U32 := lt_of_le_of_lt hba ha
  unfold u32sub
  rw [Nat.mod_eq_of_lt hbU]
  have e : a + (U32 - b) = (a - b) + U32 := by omega
  rw [e, Nat.add_mod_right]
  exact Nat.mod_eq_of_lt (by omega)

theorem dev_write_high_eq_nowrap (s : object_state) (data : List Nat)
    (hroom : ¬ OBJECT_MAX_SIZE ≤ s.numBytes + data.length)
    (hw : ¬ OBJECT_MAX_SIZE - s.off_write < data.length) :
    dev_write_high s data =
      (data.length,
        { s with
          stream_content := writeRange s.stream_content s.off_write data
          off_write := s.off_write + data.length
          numBytes := if 0 < data.length then s.numBytes + data.length else s.numBytes }) := by
  simp only [dev_write_high, if_neg hroom, if_neg hw]
  simp [List.take_length]

theorem dev_write_high_eq_wrap (s : object_state) (data : List Nat)
    (hroom : ¬ OBJECT_MAX_SIZE ≤ s.numBytes + data.length)
    (hw : OBJECT_MAX_SIZE - s.off_write < data.length) :
    dev_write_high s data =
      ((OBJECT_MAX_SIZE - s.off_write) + (data.length + s.off_write - OBJECT_MAX_SIZE),
        { s with
          stream_content := writeRange
            (writeRange s.stream_content s.off_write (data.take (OBJECT_MAX_SIZE - s.off_write)))
            0 ((data.drop (OBJECT_MAX_SIZE - s.off_write)).take
                (data.length + s.off_write - OBJECT_MAX_SIZE))
          off_write := data.length + s.off_write - OBJECT_MAX_SIZE
          numBytes := s.numBytes + ((OBJECT_MAX_SIZE - s.off_write)
            + (data.length + s.off_write - OBJECT_MAX_SIZE)) }) := by
  simp only [dev_write_high, if_neg hroom, if_pos hw]
  rw [if_pos ⟨by omega, trivial⟩, if_pos (by omega)]

theorem dev_read_nb_eq_empty (s : object_state) (len0 : Nat)
    (h : s.off_write = s.off_read) :
    dev_read_nb s len0 = ([], 0, s) := by
  obtain ⟨a, b, c, d, e, f, g, k⟩ := s
  dsimp only at h
  subst h
  simp [dev_read_nb]

theorem dev_read_nb_eq_nowrap (s : object_state) (len0 : Nat)
    (hne : ¬ s.off_write = s.off_read)
    (hw : ¬ OBJECT_MAX_SIZE - s.off_read < len0) :
    dev_read_nb s len0 =
      (readRange s.stream_content s.off_read len0, len0,
        { s with
          off_read := s.off_read + len0
          numBytes := if 0 < len0 then u32sub s.numBytes len0 else s.numBytes }) := by
  simp [dev_read_nb, hne, hw]

theorem dev_read_nb_eq_wrap (s : object_state) (len0 : Nat)
    (hne : ¬ s.off_write = s.off_read)
    (hw : OBJECT_MAX_SIZE - s.off_read < len0) :
    dev_read_nb s len0 =
      (readRange s.stream_content s.off_read (OBJECT_MAX_SIZE - s.off_read) ++
         readRange s.stream_content 0 (len0 + s.off_read - OBJECT_MAX_SIZE),
       (OBJECT_MAX_SIZE - s.off_read) + (len0 + s.off_read - OBJECT_MAX_SIZE),
        { s with
          off_read := len0 + s.off_read - OBJECT_MAX_SIZE
          numBytes := u32sub s.numBytes ((OBJECT_MAX_SIZE - s.off_read)
            + (len0 + s.off_read - OBJECT_MAX_SIZE)) }) := by
  simp only [dev_read_nb, if_neg hne, if_pos hw]
  rw [if_pos ⟨by omega, trivial⟩, if_pos (by omega)]
  simp

theorem dev_write_high_spec (s : object_state) (data : List Nat)
    (hI : Inv s) (hroom : s.numBytes + data.length < OBJECT_MAX_SIZE) :
    (dev_write_high s data).1 = data.length
    ∧ (dev_write_high s data).2.numBytes = s.numBytes + data.length
    ∧ (dev_write_high s data).2.off_read = s.off_read
    ∧ (dev_write_high s data).2.numReaders = s.numReaders
    ∧ Inv (dev_write_high s data).2
    ∧ flowQueue (dev_write_high s data).2 = flowQueue s ++ data := by
  obtain ⟨hor, how, hnb, hlt⟩ := hI
  have hroom2 : ¬ OBJECT_MAX_SIZE ≤ s.numBytes + data.length := by omega
  by_cases hro : s.off_read ≤ s.off_write
  · rw [bytesInFlow, if_pos hro] at hnb
    by_cases hw : OBJECT_MAX_SIZE - s.off_write < data.length
    · -- wrapped write, with s.off_read ≤ s.off_write
      rw [dev_write_high_eq_wrap s data hroom2 hw]
      have hL2or : data.length + s.off_write - OBJECT_MAX_SIZE < s.off_read := by omega
      have hchunk : (data.drop (OBJECT_MAX_SIZE - s.off_write)).take
          (data.length + s.off_write - OBJECT_MAX_SIZE) =
          data.drop (OBJECT_MAX_SIZE - s.off_write) :=
        List.take_of_length_le (by rw [List.length_drop]; omega)
      have hlen1 : (data.take (OBJECT_MAX_SIZE - s.off_write)).length
          = OBJECT_MAX_SIZE - s.off_write := by
        rw [List.length_take]; omega
      have hlen2 : (data.drop (OBJECT_MAX_SIZE - s.off_write)).length
          = data.length + s.off_write - OBJECT_MAX_SIZE := by
        rw [List.length_drop]; omega
      refine ⟨by omega, by dsimp only; omega, rfl, rfl, ?_, ?_⟩
      · refine ⟨by dsimp only; omega, by dsimp only; omega, ?_, by dsimp only; omega⟩
        dsimp only
        rw [bytesInFlow]
        dsimp only
        rw [if_neg (by omega)]
        omega
      · rw [flowQueue, flowQueue]
        dsimp only
        rw [if_neg (by omega), if_pos hro, hchunk]
        have e1 : OBJECT_MAX_SIZE - s.off_read
            = (s.off_write - s.off_read) + (OBJECT_MAX_SIZE - s.off_write) := by omega
        rw [e1, readRange_append]
        have e2 : s.off_read + (s.off_write - s.off_read) = s.off_write := by omega
        rw [e2]
        have hq1 : readRange
            (writeRange (writeRange s.stream_content s.off_write
              (data.take (OBJECT_MAX_SIZE - s.off_write))) 0
              (data.drop (OBJECT_MAX_SIZE - s.off_write)))
            s.off_read (s.off_write - s.off_read)
            = readRange s.stream_content s.off_read (s.off_write - s.off_read) := by
          rw [readRange_writeRange_after (by rw [hlen2]; omega),
            readRange_writeRange_before (by omega)]
        have hq2 : readRange
            (writeRange (writeRange s.stream_content s.off_write
              (data.take (OBJECT_MAX_SIZE - s.off_write))) 0
              (data.drop (OBJECT_MAX_SIZE - s.off_write)))
            s.off_write (OBJECT_MAX_SIZE - s.off_write)
            = data.take (OBJECT_MAX_SIZE - s.off_write) := by
          rw [readRange_writeRange_after (by rw [hlen2]; omega)]
          exact readRange_writeRange_of_length hlen1
        have hq3 : readRange
            (writeRange (writeRange s.stream_content s.off_write
              (data.take (OBJECT_MAX_SIZE - s.off_write))) 0
              (data.drop (OBJECT_MAX_SIZE - s.off_write)))
            0 (data.length + s.off_write - OBJECT_MAX_SIZE)
            = data.drop (OBJECT_MAX_SIZE - s.off_write) := by
          exact readRange_writeRange_of_length hlen2
        rw [hq1, hq2, hq3, List.append_assoc, List.take_append_drop]
    · -- unwrapped write, with s.off_read ≤ s.off_write
      rw [dev_write_high_eq_nowrap s data hroom2 hw]
      refine ⟨rfl, ?_, rfl, rfl, ?_, ?_⟩
      · dsimp only
        rcases Nat.eq_zero_or_pos data.length with h0 | h0
        · rw [if_neg (by omega)]; omega
        · rw [if_pos h0]
      · refine ⟨by dsimp only; omega, by dsimp only; omega, ?_, ?_⟩
        · dsimp only
          rcases Nat.eq_zero_or_pos data.length with h0 | h0
          · rw [if_neg (by omega), bytesInFlow]
            dsimp only
            rw [if_pos (by omega)]
            omega
          · rw [if_pos h0, bytesInFlow]
            dsimp only
            rw [if_pos (by omega)]
            omega
        · dsimp only
          rcases Nat.eq_zero_or_pos data.length with h0 | h0
          · rw [if_neg (by omega)]; omega
          · rw [if_pos h0]; omega
      · rw [flowQueue, flowQueue]
        dsimp only
        rw [if_pos (by omega : s.off_read ≤ s.off_write + data.length), if_pos hro]
        have e1 : s.off_write + data.length - s.off_read
            = (s.off_write - s.off_read) + data.length := by omega
        rw [e1, readRange_append]
        have e2 : s.off_read + (s.off_write - s.off_read) = s.off_write := by omega
        rw [e2]
        congr 1
        · exact readRange_writeRange_before (by omega)
        · exact readRange_writeRange _ _ _
  · -- s.off_write < s.off_read (wrapped buffer contents): the write cannot wrap
    rw [bytesInFlow, if_neg hro] at hnb
    have hw : ¬ OBJECT_MAX_SIZE - s.off_write < data.length := by omega
    rw [dev_write_high_eq_nowrap s data hroom2 hw]
    have hfit : s.off_write + data.length < s.off_read := by omega
    refine ⟨rfl, ?_, rfl, rfl, ?_, ?_⟩
    · dsimp only
      rcases Nat.eq_zero_or_pos data.length with h0 | h0
      · rw [if_neg (by omega)]; omega
      · rw [if_pos h0]
    · refine ⟨by dsimp only; omega, by dsimp only; omega, ?_, ?_⟩
      · dsimp only
        rcases Nat.eq_zero_or_pos data.length with h0 | h0
        · rw [if_neg (by omega), bytesInFlow]
          dsimp only
          rw [if_neg (by omega)]
          omega
        · rw [if_pos h0, bytesInFlow]
          dsimp only
          rw [if_neg (by omega)]
          omega
      · dsimp only
        rcases Nat.eq_zero_or_pos data.length with h0 | h0
        · rw [if_neg (by omega)]; omega
        · rw [if_pos h0]; omega
    · rw [flowQueue, flowQueue]
      dsimp only
      rw [if_neg (by omega : ¬ s.off_read ≤ s.off_write + data.length), if_neg hro]
      have hq1 : readRange (writeRange s.stream_content s.off_write data)
          s.off_read (OBJECT_MAX_SIZE - s.off_read)
          = readRange s.stream_content s.off_read (OBJECT_MAX_SIZE - s.off_read) :=
        readRange_writeRange_after (by omega)
      have e1 : s.off_write + data.length = s.off_write + data.length := rfl
      have hq2 : readRange (writeRange s.stream_content s.off_write data)
          0 (s.off_write + data.length)
          = readRange s.stream_content 0 s.off_write ++ data := by
        have e : s.off_write + data.length = s.off_write + data.length := rfl
        rw [show s.off_write + data.length = s.off_write + data.length from rfl,
          readRange_append]
        congr 1
        · exact readRange_writeRange_before (by omega)
        · have e3 : 0 + s.off_write = s.off_write := by omega
          rw [e3]
          exact readRange_writeRange _ _ _
      rw [hq1, hq2, List.append_assoc]

theorem OBJECT_MAX_SIZE_lt_U32 : OBJECT_MAX_SIZE < U32 := by decide

theorem dev_read_nb_spec (s : object_state) (len : Nat)
    (hI : Inv s) (hlen : len ≤ bytesInFlow s) :
    (dev_read_nb s len).1 = (flowQueue s).take len
    ∧ (dev_read_nb s len).2.1 = len
    ∧ (dev_read_nb s len).2.2.numBytes = s.numBytes - len
    ∧ (dev_read_nb s len).2.2.numReaders = s.numReaders
    ∧ Inv (dev_read_nb s len).2.2
    ∧ flowQueue (dev_read_nb s len).2.2 = (flowQueue s).drop len := by
  obtain ⟨hor, how, hnb, hlt⟩ := hI
  have hU : s.numBytes < U32 := lt_trans hlt OBJECT_MAX_SIZE_lt_U32
  by_cases heq : s.off_write = s.off_read
  · rw [dev_read_nb_eq_empty s len heq]
    have hb : bytesInFlow s = 0 := by
      rw [bytesInFlow, if_pos (by omega)]
      omega
    have hlen0 : len = 0 := by omega
    subst hlen0
    exact ⟨by simp, rfl, by dsimp only; omega, rfl, ⟨hor, how, hnb, hlt⟩, by simp⟩
  · by_cases hro : s.off_read ≤ s.off_write
    · -- data stored contiguously: s.off_read < s.off_write
      rw [bytesInFlow, if_pos hro] at hnb hlen
      have hw : ¬ OBJECT_MAX_SIZE - s.off_read < len := by omega
      rw [dev_read_nb_eq_nowrap s len heq hw]
      refine ⟨?_, rfl, ?_, rfl, ?_, ?_⟩
      · dsimp only
        rw [flowQueue, if_pos hro, readRange_take]
        congr 1
        omega
      · dsimp only
        rcases Nat.eq_zero_or_pos len with h0 | h0
        · rw [if_neg (by omega)]; omega
        · rw [if_pos h0, u32sub_eq_sub (by omega) hU]
      · refine ⟨by dsimp only; omega, by dsimp only; omega, ?_, ?_⟩
        · dsimp only
          rcases Nat.eq_zero_or_pos len with h0 | h0
          · rw [if_neg (by omega), bytesInFlow]
            dsimp only
            rw [if_pos (by omega)]
            omega
          · rw [if_pos h0, u32sub_eq_sub (by omega) hU, bytesInFlow]
            dsimp only
            rw [if_pos (by omega)]
            omega
        · dsimp only
          rcases Nat.eq_zero_or_pos len with h0 | h0
          · rw [if_neg (by omega)]; omega
          · rw [if_pos h0, u32sub_eq_sub (by omega) hU]; omega
      · rw [flowQueue, flowQueue]
        dsimp only
        rw [if_pos (by omega : s.off_read + len ≤ s.off_write), if_pos hro,
          readRange_drop]
        congr 1
        omega
    · -- data stored wrapped: s.off_write < s.off_read
      rw [bytesInFlow, if_neg hro] at hnb hlen
      by_cases hw : OBJECT_MAX_SIZE - s.off_read < len
      · -- the read itself wraps
        rw [dev_read_nb_eq_wrap s len heq hw]
        have hL : (OBJECT_MAX_SIZE - s.off_read) + (len + s.off_read - OBJECT_MAX_SIZE)
            = len := by omega
        have hL2ow : len + s.off_read - OBJECT_MAX_SIZE ≤ s.off_write := by omega
        refine ⟨?_, by dsimp only; omega, ?_, rfl, ?_, ?_⟩
        · dsimp only
          rw [flowQueue, if_neg hro, List.take_append_eq_append_take,
            readRange_length, readRange_take, readRange_take]
          have e1 : min len (OBJECT_MAX_SIZE - s.off_read)
              = OBJECT_MAX_SIZE - s.off_read := by omega
          have e2 : min (len - (OBJECT_MAX_SIZE - s.off_read)) s.off_write
              = len + s.off_read - OBJECT_MAX_SIZE := by omega
          rw [e1, e2]
        · dsimp only
          rw [u32sub_eq_sub (by omega) hU]
          omega
        · refine ⟨by dsimp only; omega, by dsimp only; omega, ?_, ?_⟩
          · dsimp only
            rw [u32sub_eq_sub (by omega) hU, bytesInFlow]
            dsimp only
            rw [if_pos (by omega)]
            omega
          · dsimp only
            rw [u32sub_eq_sub (by omega) hU]
            omega
        · rw [flowQueue, flowQueue]
          dsimp only
          rw [if_pos (by omega : len + s.off_read - OBJECT_MAX_SIZE ≤ s.off_write),
            if_neg hro, List.drop_append_eq_append_drop, readRange_length,
            readRange_drop, readRange_drop]
          have e1 : OBJECT_MAX_SIZE - s.off_read - len = 0 := by omega
          have e2 : s.off_read + len = s.off_read + len := rfl
          rw [e1]
          have e3 : 0 + (len - (OBJECT_MAX_SIZE - s.off_read))
              = len + s.off_read - OBJECT_MAX_SIZE := by omega
          have e4 : s.off_write - (len - (OBJECT_MAX_SIZE - s.off_read))
              = s.off_write - (len + s.off_read - OBJECT_MAX_SIZE) := by omega
          rw [e3, e4,
            show readRange s.stream_content (s.off_read + len) 0 = [] from rfl,
            List.nil_append]
      · -- the read stays before the page end
        rw [dev_read_nb_eq_nowrap s len heq hw]
        refine ⟨?_, rfl, ?_, rfl, ?_, ?_⟩
        · dsimp only
          rw [flowQueue, if_neg hro, List.take_append_eq_append_take,
            readRange_length, readRange_take, readRange_take]
          have e1 : min len (OBJECT_MAX_SIZE - s.off_read) = len := by omega
          have e2 : min (len - (OBJECT_MAX_SIZE - s.off_read)) s.off_write = 0 := by
            omega
          rw [e1, e2, show readRange s.stream_content 0 0 = [] from rfl,
            List.append_nil]
        · dsimp only
          rcases Nat.eq_zero_or_pos len with h0 | h0
          · rw [if_neg (by omega)]; omega
          · rw [if_pos h0, u32sub_eq_sub (by omega) hU]
        · refine ⟨by dsimp only; omega, by dsimp only; omega, ?_, ?_⟩
          · dsimp only
            rcases Nat.eq_zero_or_pos len with h0 | h0
            · rw [if_neg (by omega), bytesInFlow]
              dsimp only
              rw [if_neg (by omega)]
              omega
            · rw [if_pos h0, u32sub_eq_sub (by omega) hU, bytesInFlow]
              dsimp only
              rw [if_neg (by omega)]
              omega
          · dsimp only
            rcases Nat.eq_zero_or_pos len with h0 | h0
            · rw [if_neg (by omega)]; omega
            · rw [if_pos h0, u32sub_eq_sub (by omega) hU]; omega
        · rw [flowQueue, flowQueue]
          dsimp only
          rw [if_neg (by omega : ¬ s.off_read + len ≤ s.off_write), if_neg hro,
            List.drop_append_eq_append_drop, readRange_length, readRange_drop]
          have e1 : len - (OBJECT_MAX_SIZE - s.off_read) = 0 := by omega
          rw [e1, List.drop_zero]
          congr 2
          omega

theorem dev_write_low_success (s : object_state) (data : List Nat)
    (hroom : s.numBytes + data.length < OBJECT_MAX_SIZE) :
    dev_write_low s data false =
      ((data.length : Int), some ⟨data.length, data⟩,
        { s with numBytes := s.numBytes + data.length }) := by
  have hn : ¬ OBJECT_MAX_SIZE ≤ s.numBytes + data.length := by omega
  simp only [dev_write_low, Bool.false_eq_true, if_false, if_neg hn]

theorem delayed_work_numBytes (s : object_state) (w : packed_work) :
    (delayed_work s w).numBytes = s.numBytes := by
  simp only [delayed_work]
  split <;> rfl

theorem read_loop_numReaders (fuel : Nat) (s : object_state) (acc : List Nat)
    (len result : Nat) :
    (read_loop s acc len result fuel).2.2.numReaders = s.numReaders := by
  induction fuel generalizing s acc len result with
  | zero => rfl
  | succ fuel ih =>
    simp only [read_loop]
    split_ifs <;> simp [ih]

/-- C1: on a HIGH-priority instance, a successful write appends the payload
to the flow's FIFO queue and a read whose length does not exceed the bytes
present returns exactly the oldest bytes in write order and removes them;
in particular writing the 4-byte payload "ciao" into an empty flow and then
reading 4 bytes returns exactly "ciao". -/
theorem high_flow_fifo (s : object_state) (data : List Nat) (len : Nat)
    (hI : Inv s) :
    (s.numBytes + data.length < OBJECT_MAX_SIZE →
      (dev_write_high s data).1 = data.length
      ∧ Inv (dev_write_high s data).2
      ∧ flowQueue (dev_write_high s data).2 = flowQueue s ++ data)
    ∧ (len ≤ bytesInFlow s →
      (dev_read_nb s len).1 = (flowQueue s).take len
      ∧ (dev_read_nb s len).2.1 = len
      ∧ Inv (dev_read_nb s len).2.2
      ∧ flowQueue (dev_read_nb s len).2.2 = (flowQueue s).drop len)
    ∧ (dev_read_nb (dev_write_high nbState ciao).2 4).1 = ciao := by
  refine ⟨?_, ?_, by decide⟩
  · intro h
    obtain ⟨h1, _, _, _, h5, h6⟩ := dev_write_high_spec s data hI h
    exact ⟨h1, h5, h6⟩
  · intro h
    obtain ⟨h1, h2, _, _, h5, h6⟩ := dev_read_nb_spec s len hI h
    exact ⟨h1, h2, h5, h6⟩

theorem high_flow_fifo_witness :
    (dev_write_high nbState ciao).1 = 4
    ∧ flowQueue (dev_write_high nbState ciao).2 = flowQueue nbState ++ ciao
    ∧ (dev_read_nb (dev_write_high nbState ciao).2 4).2.1 = 4
    ∧ (dev_read_nb (dev_write_high nbState ciao).2 4).1 = ciao := by
  refine ⟨?_, ?_, ?_, (high_flow_fifo nbState ciao 4 (by decide)).2.2⟩
  · exact ((high_flow_fifo nbState ciao 0 (by decide)).1 (by decide)).1.trans
      (by decide)
  · exact ((high_flow_fifo nbState ciao 0 (by decide)).1 (by decide)).2.2
  · exact ((high_flow_fifo (dev_write_high nbState ciao).2 [] 4
      (by decide)).2.1 (by decide)).2.1

/-- C2: the claim states a read returns at most min(len, bytes_present).
Evaluating the embedded read on an instance holding 2 bytes with a request
for 4 shows the code copies and returns 4 bytes (two of which were never
written), advances the read cursor past the write cursor, and wraps the
unsigned byte counter around to 4294967294. -/
theorem read_overdraw_eval :
    s2bytes.numBytes = 2
    ∧ min 4 s2bytes.numBytes = 2
    ∧ (dev_read_nb s2bytes 4).2.1 = 4
    ∧ (dev_read_nb s2bytes 4).1 = [10, 20, 0, 0]
    ∧ (dev_read_nb s2bytes 4).2.2.off_read = 4
    ∧ (dev_read_nb s2bytes 4).2.2.off_write = 2
    ∧ (dev_read_nb s2bytes 4).2.2.numBytes = 4294967294 := by decide

/-- C3: a successful LOW-priority write returns the reserved byte count
synchronously, increments the visible byte counter by that count at
reservation time while leaving the stream and the write cursor untouched,
enqueues the deferred task, and the deferred worker that later performs
the physical copy never modifies the byte counter. -/
theorem low_write_reservation (s : object_state) (data : List Nat)
    (hroom : s.numBytes + data.length < OBJECT_MAX_SIZE) :
    (dev_write_low s data false).1 = (data.length : Int)
    ∧ (dev_write_low s data false).2.2.numBytes = s.numBytes + data.length
    ∧ (dev_write_low s data false).2.2.stream_content = s.stream_content
    ∧ (dev_write_low s data false).2.2.off_write = s.off_write
    ∧ (dev_write_low s data false).2.1 = some ⟨data.length, data⟩
    ∧ ∀ (t : object_state) (w : packed_work),
        (delayed_work t w).numBytes = t.numBytes := by
  rw [dev_write_low_success s data hroom]
  exact ⟨rfl, rfl, rfl, rfl, rfl, delayed_work_numBytes⟩

theorem low_write_reservation_witness :
    (dev_write_low nbState ciao false).1 = 4
    ∧ (dev_write_low nbState ciao false).2.2.numBytes = 4
    ∧ (dev_write_low nbState ciao false).2.2.off_write = 0
    ∧ (delayed_work nbState wTask2).numBytes = 0 := by
  have h := low_write_reservation nbState ciao (by decide)
  exact ⟨h.1.trans (by decide), (h.2.1).trans (by decide), h.2.2.2.1,
    (h.2.2.2.2.2 nbState wTask2).trans (by decide)⟩

/-- C4: the claim states the statistics surface exposes bytes_present and
waiting_readers separately per flow.  The module exposes only one
numBytes[minor] and one numReaders[minor] cell per minor: after a
HIGH-priority write of three bytes to a fresh instance the value served
for the LOW flow (to which nothing was ever written) is also 3, not 0. -/
theorem stats_not_per_flow_cex :
    reportBytes nbState Flow.low = 0
    ∧ reportBytes (dev_write_high nbState [97, 98, 99]).2 Flow.low = 3
    ∧ reportBytes (dev_write_high nbState [97, 98, 99]).2 Flow.high = 3 := by
  decide

/-- C4 (amended): the statistics surface exposes a single bytes_present
and a single waiting_readers value per minor, shared by the HIGH and LOW
flows, and operations of either priority keep those shared per-minor
values up to date: both a HIGH write and a LOW reservation add the written
length, a read subtracts the bytes read and leaves the waiting-readers
count balanced. -/
theorem stats_shared_per_minor (s : object_state) (data : List Nat) (len : Nat)
    (f g : Flow) (hI : Inv s)
    (hroom : s.numBytes + data.length < OBJECT_MAX_SIZE)
    (hlen : len ≤ bytesInFlow s) :
    reportBytes s f = reportBytes s g
    ∧ reportReaders s f = reportReaders s g
    ∧ reportBytes (dev_write_high s data).2 f = s.numBytes + data.length
    ∧ reportBytes (dev_write_low s data false).2.2 f = s.numBytes + data.length
    ∧ reportBytes (dev_read_nb s len).2.2 f = s.numBytes - len
    ∧ reportReaders (dev_read_nb s len).2.2 f = reportReaders s f := by
  refine ⟨rfl, rfl, (dev_write_high_spec s data hI hroom).2.1, ?_,
    (dev_read_nb_spec s len hI hlen).2.2.1, (dev_read_nb_spec s len hI hlen).2.2.2.1⟩
  rw [dev_write_low_success s data hroom]
  rfl

theorem stats_shared_per_minor_witness :
    reportBytes (dev_write_high nbState [9]).2 Flow.low = 1
    ∧ reportBytes (dev_write_low nbState [9] false).2.2 Flow.high = 1 := by
  have h := stats_shared_per_minor nbState [9] 0 Flow.low Flow.high
    (by decide) (by decide) (by decide)
  exact ⟨h.2.2.1.trans (by decide), h.2.2.2.1.trans (by decide)⟩

/-- C5: the claim states a non-blocking write returns 0 exactly when
bytes_present + len > capacity, and that a write with
bytes_present + len == 4096 proceeds and fills the buffer completely.
The full-check at line 282 uses >=, so on an instance holding 4092 bytes
a 4-byte write (4092 + 4 == 4096) returns 0 and changes nothing. -/
theorem write_exact_fit_rejected :
    s4092.numBytes + 4 = OBJECT_MAX_SIZE
    ∧ (dev_write_high s4092 [1, 2, 3, 4]).1 = 0
    ∧ (dev_write_high s4092 [1, 2, 3, 4]).2.numBytes = 4092
    ∧ (dev_write_high s4092 [1, 2, 3, 4]).2.off_write = 4092 := by decide

/-- C5 (amended): for a non-empty payload, the non-blocking HIGH write
returns 0 exactly when bytes_present + len >= capacity (4096); the
exact-fit case is rejected, and consequently on a valid instance the byte
count after any write stays strictly below the capacity — the buffer is
never filled completely. -/
theorem write_full_iff (s : object_state) (data : List Nat) (h : data ≠ []) :
    ((dev_write_high s data).1 = 0 ↔ OBJECT_MAX_SIZE ≤ s.numBytes + data.length)
    ∧ (Inv s → (dev_write_high s data).2.numBytes < OBJECT_MAX_SIZE) := by
  have hpos : 0 < data.length := List.length_pos.mpr h
  by_cases hfull : OBJECT_MAX_SIZE ≤ s.numBytes + data.length
  · constructor
    · simp only [dev_write_high, if_pos hfull]
      exact ⟨fun _ => hfull, fun _ => trivial⟩
    · intro hI
      simp only [dev_write_high, if_pos hfull]
      exact hI.2.2.2
  · constructor
    · constructor
      · intro h0
        exfalso
        by_cases hw : OBJECT_MAX_SIZE - s.off_write < data.length
        · rw [dev_write_high_eq_wrap s data hfull hw] at h0
          dsimp only at h0
          omega
        · rw [dev_write_high_eq_nowrap s data hfull hw] at h0
          dsimp only at h0
          omega
      · intro hge
        exact absurd hge hfull
    · intro hI
      have hn := (dev_write_high_spec s data hI (by omega)).2.1
      omega

theorem write_full_iff_witness :
    (dev_write_high s4092 [5, 6, 7, 8]).1 = 0
    ∧ (dev_write_high nbState [5]).2.numBytes < OBJECT_MAX_SIZE := by
  exact ⟨(write_full_iff s4092 [5, 6, 7, 8] (by decide)).1.mpr (by decide),
    (write_full_iff nbState [5] (by decide)).2 (by decide)⟩

/-- C6: the claim states that every read and write preserves the invariant
that the byte count lies in [0, capacity] and equals the cursor distance.
Evaluating the embedded read on an instance that satisfies the invariant
and holds 3 bytes, with a request for 5, shows the code leaves the read
cursor at 5 (past the write cursor at 3) and the unsigned byte counter at
4294967294, far above the capacity: the read broke the invariant. -/
theorem invariant_broken_by_overdraw :
    Inv s3bytes
    ∧ bytesInFlow s3bytes = 3
    ∧ (dev_read_nb s3bytes 5).2.1 = 5
    ∧ (dev_read_nb s3bytes 5).2.2.off_read = 5
    ∧ (dev_read_nb s3bytes 5).2.2.off_write = 3
    ∧ (dev_read_nb s3bytes 5).2.2.numBytes = 4294967294
    ∧ OBJECT_MAX_SIZE < (dev_read_nb s3bytes 5).2.2.numBytes := by decide

/-- C7: a read increments the target minor's waiting-readers counter on
entry (line 412) and decrements it on every exit path of both the blocking
and the non-blocking branch, so after the call returns the counter is back
to its initial value, for every state, request length and number of
blocking-loop iterations before the timeout. -/
theorem read_waiting_readers_balanced (s : object_state) (len fuel : Nat) :
    (readEntry s).numReaders = s.numReaders + 1
    ∧ (dev_read_nb s len).2.2.numReaders = s.numReaders
    ∧ (dev_read_bl s len fuel).2.2.numReaders = s.numReaders := by
  refine ⟨rfl, ?_, ?_⟩
  · by_cases heq : s.off_write = s.off_read
    · rw [dev_read_nb_eq_empty s len heq]
    · by_cases hw : OBJECT_MAX_SIZE - s.off_read < len
      · rw [dev_read_nb_eq_wrap s len heq hw]
      · rw [dev_read_nb_eq_nowrap s len heq hw]
  · have h := read_loop_numReaders fuel (readEntry s) [] len 0
    have h2 : (readEntry s).numReaders = s.numReaders + 1 := rfl
    dsimp only [dev_read_bl]
    omega

/-- C8: the claim states that a LOW-priority write whose deferred-task
allocation fails returns zero bytes written.  The allocation-failure path
at lines 325-330 returns -1, a negative hard-failure code, not 0. -/
theorem alloc_failure_returns_error :
    (dev_write_low nbState [99] true).1 = -1
    ∧ (dev_write_low nbState [99] true).1 < 0 := by decide

/-- C8 (amended): a LOW-priority write whose deferred-task allocation
fails returns the hard failure code -1 (with a logged condition), leaving
the instance state untouched, so the session remains usable. -/
theorem alloc_failure_spec (s : object_state) (data : List Nat) :
    dev_write_low s data true = (-1, none, s) := rfl

/-- C9: a timeout-configuration ioctl with a positive value sets the
instance timeout to that value and succeeds with 0; with a non-positive
value it fails with -1 and the whole instance configuration (timeout,
priority, blocking mode) is left unchanged. -/
theorem ioctl_timeout_spec (s : object_state) (v : Int) :
    (0 < v → dev_ioctl s .timeoutCmd v = (0, { s with timeout := v }))
    ∧ (v ≤ 0 →
        (dev_ioctl s .timeoutCmd v).1 = -1
        ∧ (dev_ioctl s .timeoutCmd v).2 = s) := by
  constructor
  · intro h
    simp only [dev_ioctl, if_pos h]
  · intro h
    have hn : ¬ 0 < v := by omega
    simp [dev_ioctl, hn]

theorem ioctl_timeout_spec_witness :
    dev_ioctl nbState .timeoutCmd 500 = (0, { nbState with timeout := 500 })
    ∧ (dev_ioctl nbState .timeoutCmd (-3)).1 = -1
    ∧ (dev_ioctl nbState .timeoutCmd (-3)).2 = nbState := by
  exact ⟨(ioctl_timeout_spec nbState 500).1 (by norm_num),
    ((ioctl_timeout_spec nbState (-3)).2 (by norm_num)).1,
    ((ioctl_timeout_spec nbState (-3)).2 (by norm_num)).2⟩

/-- C10: the claim states that every committed deferred task transfers
only the bytes of the payload before its first zero byte (plus a
terminator).  For a commit that wraps around the page end the truncation
is applied per chunk: with the write cursor at 4094 and payload
[1, 0, 2, 3], the bytes 2 and 3 — which lie after the payload's first zero
byte — are still transferred to offsets 0 and 1 by the second strcpy. -/
theorem strcpy_wrap_transfers_after_zero :
    takeUntilZero wTaskZero.buffer = [1]
    ∧ (delayed_work wStateWrap wTaskZero).stream_content 0 = 2
    ∧ (delayed_work wStateWrap wTaskZero).stream_content 1 = 3
    ∧ (delayed_work wStateWrap wTaskZero).stream_content 4094 = 1
    ∧ (delayed_work wStateWrap wTaskZero).stream_content 4095 = 0 := by decide

/-- C10 (amended): for every committed deferred task that does not wrap
around the page end, the physical copy uses string-copy semantics on the
stored payload: exactly the bytes before the payload's first zero byte are
transferred, a terminator zero byte is written right after them, nothing
beyond the terminator is touched, and yet the write cursor advances by the
full reserved length while the byte counter (already incremented by the
full reserved length at reservation time) is not modified by the worker. -/
theorem delayed_work_strcpy_spec (s : object_state) (w : packed_work)
    (hfit : w.copiedBytes ≤ OBJECT_MAX_SIZE - s.off_write) :
    readRange (delayed_work s w).stream_content s.off_write
        (takeUntilZero w.buffer).length = takeUntilZero w.buffer
    ∧ (delayed_work s w).stream_content
        (s.off_write + (takeUntilZero w.buffer).length) = 0
    ∧ (∀ i, s.off_write + (takeUntilZero w.buffer).length < i →
        (delayed_work s w).stream_content i = s.stream_content i)
    ∧ (delayed_work s w).off_write = s.off_write + w.copiedBytes
    ∧ (delayed_work s w).numBytes = s.numBytes := by
  have hd : delayed_work s w =
      { s with
        stream_content := strcpyAt s.stream_content s.off_write w.buffer
        off_write := s.off_write + w.copiedBytes } := by
    simp only [delayed_work, if_pos hfit]
  rw [hd]
  dsimp only
  unfold strcpyAt
  have hP : readRange
      (writeRange s.stream_content s.off_write (takeUntilZero w.buffer ++ [0]))
      s.off_write ((takeUntilZero w.buffer).length + 1)
      = takeUntilZero w.buffer ++ [0] :=
    readRange_writeRange_of_length (by simp)
  rw [readRange_append] at hP
  have hsplit := List.append_inj hP (by rw [readRange_length])
  refine ⟨hsplit.1, ?_, ?_, rfl, rfl⟩
  · have h1 := hsplit.2
    rw [show readRange
        (writeRange s.stream_content s.off_write (takeUntilZero w.buffer ++ [0]))
        (s.off_write + (takeUntilZero w.buffer).length) 1
        = [writeRange s.stream_content s.off_write (takeUntilZero w.buffer ++ [0])
            (s.off_write + (takeUntilZero w.buffer).length)] from rfl] at h1
    simpa using h1
  · intro i hi
    have hl : (takeUntilZero w.buffer ++ [0]).length
        = (takeUntilZero w.buffer).length + 1 := by simp
    exact writeRange_apply_out (Or.inr (by omega))

theorem delayed_work_strcpy_spec_witness :
    readRange (delayed_work wState2 wTask2).stream_content 10 1 = [7]
    ∧ (delayed_work wState2 wTask2).stream_content 11 = 0
    ∧ (delayed_work wState2 wTask2).stream_content 12 = 0
    ∧ (delayed_work wState2 wTask2).off_write = 13
    ∧ (delayed_work wState2 wTask2).numBytes = 0 := by
  have h := delayed_work_strcpy_spec wState2 wTask2 (by decide)
  exact ⟨h.1, h.2.1, (h.2.2.1 12 (by decide)).trans rfl, h.2.2.2.1,
    h.2.2.2.2.trans (by decide)⟩

end MultiFlow
